import Mathlib

/-!
Verification development for the CFG/DFG construction core of the
GenerativeAI repository (src/partA/cfg_generator.py and
src/partA/dfg_generator.py).

The Python code is shallowly embedded: the mutable `CFGNode` heap becomes an
explicit state (`CFGState`) holding an id counter and an id-addressed node
table; the `ast.NodeVisitor`-based data-flow analyzer becomes a fold over an
explicit analyzer state.  Statement and expression ASTs are modelled by the
inductive fragment the code dispatches on; `ast.unparse` output appears as the
string fields the code feeds to labels.  File-system / graphviz effects
(`graph.render`) are modelled by oracle parameters returning `Option String`
(`none` = the backend raised, which the Python code catches), and `datetime`
by an explicit `PyDateTime` value.
-/

/- ===================== CFG generator (cfg_generator.py) ===================== -/

/-- A node of the control-flow graph, mirroring class `CFGNode`
(cfg_generator.py lines 18-38).  Python keeps `successors` (a list of node
references) and `edge_labels` (a dict) separately; here each successor entry is
a pair (successor id, edge label), the empty string standing for an edge that
got no label (`add_successor` only stores a label `if label:`). -/
structure CFGNodeData where
  label : String
  node_type : String
  succs : List (Nat × String)
deriving DecidableEq, Repr

/-- The mutable state of CFG construction: `CFGNode._id_counter` plus the heap
of nodes created so far, addressed by id. -/
structure CFGState where
  counter : Nat
  nodes : List (Nat × CFGNodeData)
deriving DecidableEq, Repr

def initCFGState : CFGState := ⟨0, []⟩

/-- `CFGNode.__init__` (lines 23-29): take the current value of the class
counter as the id, increment the counter, start with no successors. -/
def newNode (label node_type : String) (s : CFGState) : Nat × CFGState :=
  (s.counter, ⟨s.counter + 1, (s.counter, ⟨label, node_type, []⟩) :: s.nodes⟩)

/-- Body of `CFGNode.add_successor` (lines 31-35) acting on one node's data:
append the successor unless it is already present. -/
def addSucc (nd : CFGNodeData) (dst : Nat) (lbl : String) : CFGNodeData :=
  if nd.succs.any (fun p => p.1 = dst) then nd
  else ⟨nd.label, nd.node_type, nd.succs ++ [(dst, lbl)]⟩

/-- `node.add_successor(dst, lbl)` as a state update on the heap. -/
def addSuccessor (src dst : Nat) (lbl : String) (s : CFGState) : CFGState :=
  ⟨s.counter, s.nodes.map (fun p => if p.1 = src then (p.1, addSucc p.2 dst lbl) else p)⟩

def lookupNode (s : CFGState) (id : Nat) : Option CFGNodeData :=
  (s.nodes.find? (fun p => p.1 = id)).map (fun p => p.2)

/-- Python's `label[:47]`: the first 47 characters (code points). -/
def strTake (s : String) (n : Nat) : String := String.mk (s.data.take n)

/-- The truncation applied to statement and condition labels
(e.g. lines 152-153): `if len(label) > 50: label = label[:47] + "..."`. -/
def truncateLabel (s : String) : String :=
  if s.length > 50 then strTake s 47 ++ "..." else s

/-- The statement fragment `_build_cfg_from_statements` dispatches on
(lines 133-157).  String fields carry what `ast.unparse` returns for the
corresponding sub-node: `testText` for the test of an `if`/`while`,
`targetText`/`iterText` for a `for`, `valueText` for a return value, and
`text` for the whole statement in the default arm.  `ast.unparse` of a
`break`/`continue` statement is the fixed text "break"/"continue". -/
inductive CStmt where
  | sif (testText : String) (body orelse : List CStmt)
  | swhile (testText : String) (body : List CStmt)
  | sfor (targetText iterText : String) (body : List CStmt)
  | sret (valueText : Option String)
  | sbreak
  | scontinue
  | sother (text : String)

mutual

/-- One iteration of the reversed-statement loop of
`_build_cfg_from_statements` (lines 133-157), with the bodies of the helper
methods `_build_if_cfg` (lines 161-186), `_build_while_cfg` (lines 188-207)
and `_build_for_cfg` (lines 209-228) inlined into their dispatch arms.
`cur` is Python's `current` (the node control reaches after this statement);
the returned pair is the new `current` and the updated heap. -/
def buildStmt : CStmt → Option Nat → CFGState → Option Nat × CFGState
  | .sif test body orelse, cur, s =>
    -- _build_if_cfg: condition node, then "True"/"False" branches.
    let c := newNode (truncateLabel ("if " ++ test)) "condition" s
    let rT := buildStmts body cur c.2
    let s3 :=
      match rT.1 with
      | some t => addSuccessor c.1 t "True" rT.2
      | none =>
        match cur with
        | some n => addSuccessor c.1 n "True" rT.2
        | none => rT.2
    let s5 :=
      if orelse.isEmpty then
        match cur with
        | some n => addSuccessor c.1 n "False" s3
        | none => s3
      else
        let rF := buildStmts orelse cur s3
        match rF.1 with
        | some f => addSuccessor c.1 f "False" rF.2
        | none =>
          match cur with
          | some n => addSuccessor c.1 n "False" rF.2
          | none => rF.2
    (some c.1, s5)
  | .swhile test body, cur, s =>
    -- _build_while_cfg: the loop body is built with the condition node as its
    -- continuation, producing the back-edge.
    let c := newNode (truncateLabel ("while " ++ test)) "condition" s
    let rB := buildStmts body (some c.1) c.2
    let s3 :=
      match rB.1 with
      | some b => addSuccessor c.1 b "True" rB.2
      | none => addSuccessor c.1 c.1 "True" rB.2
    let s4 :=
      match cur with
      | some n => addSuccessor c.1 n "False" s3
      | none => s3
    (some c.1, s4)
  | .sfor target iter body, cur, s =>
    -- _build_for_cfg: header node, body built with the header as continuation.
    let c := newNode (truncateLabel ("for " ++ target ++ " in " ++ iter)) "condition" s
    let rB := buildStmts body (some c.1) c.2
    let s3 :=
      match rB.1 with
      | some b => addSuccessor c.1 b "iterate" rB.2
      | none => addSuccessor c.1 c.1 "iterate" rB.2
    let s4 :=
      match cur with
      | some n => addSuccessor c.1 n "done" s3
      | none => s3
    (some c.1, s4)
  | .sret v, _, s =>
    -- lines 140-143: a return node is created and becomes `current`
    -- without ever being linked to the old `current`.
    let label :=
      match v with
      | some t => "return " ++ t
      | none => "return"
    let n := newNode label "return" s
    (some n.1, n.2)
  | .sbreak, cur, s =>
    -- lines 144-148: break/continue nodes are wired to `current`.
    let n := newNode "break" "control" s
    match cur with
    | some c => (some n.1, addSuccessor n.1 c "" n.2)
    | none => (some n.1, n.2)
  | .scontinue, cur, s =>
    let n := newNode "continue" "control" s
    match cur with
    | some c => (some n.1, addSuccessor n.1 c "" n.2)
    | none => (some n.1, n.2)
  | .sother text, cur, s =>
    -- lines 149-157: default arm, truncated label, wired to `current`.
    let n := newNode (truncateLabel text) "statement" s
    match cur with
    | some c => (some n.1, addSuccessor n.1 c "" n.2)
    | none => (some n.1, n.2)

/-- `_build_cfg_from_statements` (lines 115-159): statements are processed in
reverse, threading `current` (initially the caller's `next_node`); an empty
list just returns `next_node`. -/
def buildStmts : List CStmt → Option Nat → CFGState → Option Nat × CFGState
  | [], next, s => (next, s)
  | stmt :: rest, next, s =>
    let r := buildStmts rest next s
    buildStmt stmt r.1 r.2

end

def joinArgs (args : List String) : String := String.intercalate ", " args

/-- `_build_cfg_from_function` (lines 90-113).  The `idCounter` argument is
the incoming value of the class-level global `CFGNode._id_counter`; the first
line of the method (`CFGNode._id_counter = 0`, line 101) overwrites it, which
here shows up as the argument being discarded in favour of a counter-0 state.
Returns the entry node id together with the final heap/counter state. -/
def buildCFGFromFunction (name : String) (args : List String) (body : List CStmt)
    (idCounter : Nat) : Nat × CFGState :=
  let s0 : CFGState := ⟨0, initCFGState.nodes⟩
  let e := newNode ("def " ++ name ++ "(" ++ joinArgs args ++ ")") "entry" s0
  match body with
  | [] => (e.1, e.2)
  | _ =>
    let r := buildStmts body none e.2
    match r.1 with
    | some f => (e.1, addSuccessor e.1 f "" r.2)
    | none => (e.1, r.2)

/-- Python dict update `result[k] = v`: replace in place if the key exists,
append otherwise. -/
def setEntry (k v : String) (l : List (String × String)) : List (String × String) :=
  if l.any (fun p => p.1 = k) then
    l.map (fun p => if p.1 = k then (k, v) else p)
  else l ++ [(k, v)]

/-- One function definition as found by `ast.walk` in `generate_cfg`
(the modelled modules keep their function definitions at top level). -/
structure PyFunctionDef where
  name : String
  args : List String
  body : List CStmt

/-- `CFGGenerator.generate_cfg` (lines 51-88).  `parsed` is the outcome of
`ast.parse(code)`; a parse error raises inside the `try`, is caught by the
blanket `except Exception` (lines 84-88) and the — still empty — `result`
dict is returned, so the caller sees an ordinary value, not an error.
`render` stands for `_visualize_cfg` (lines 230-286), which catches its own
exceptions and returns `None` on any graphviz failure; functions whose render
returns `None` are simply not added to `result` (line 78-79). -/
def generateCFG (render : String → Nat × CFGState → Option String)
    (parsed : Except String (List PyFunctionDef)) :
    Except String (List (String × String)) :=
  match parsed with
  | .error _ => .ok []
  | .ok funcs =>
    .ok (funcs.foldl
      (fun result fd =>
        let built := buildCFGFromFunction fd.name fd.args fd.body 0
        match render fd.name built with
        | some p => setEntry fd.name p result
        | none => result)
      [])

/-- A `datetime.now()` value; `strftime("%Y%m%d_%H%M%S")` ignores the
sub-second `micro` field. -/
structure PyDateTime where
  year : Nat
  month : Nat
  day : Nat
  hour : Nat
  minute : Nat
  second : Nat
  micro : Nat
deriving DecidableEq, Repr

/-- Zero padding as performed by `strftime` field formatting. -/
def padZeros (w n : Nat) : String :=
  let s := toString n
  String.mk (List.replicate (w - s.length) '0') ++ s

/-- `datetime.now().strftime("%Y%m%d_%H%M%S")` (line 273 of cfg_generator.py,
line 264 of dfg_generator.py): second-resolution, no sub-second component. -/
def formatTimestamp (dt : PyDateTime) : String :=
  padZeros 4 dt.year ++ padZeros 2 dt.month ++ padZeros 2 dt.day ++ "_" ++
    padZeros 2 dt.hour ++ padZeros 2 dt.minute ++ padZeros 2 dt.second

/-- The artifact path produced by both `_visualize_cfg` (lines 272-278) and
`_create_visualization` (lines 263-269):
`os.path.join(output_dir, f"{function_name}_{timestamp}")` plus ".png". -/
def artifactPath (outputDir functionName ts : String) : String :=
  outputDir ++ "/" ++ functionName ++ "_" ++ ts ++ ".png"

/- ===================== DFG generator (dfg_generator.py) ===================== -/

/-- Expression contexts: `ast.Load` for reads, `ast.Store` for assignment
targets.  `visit_Name` (lines 140-144) records a name only in Load context. -/
inductive Ctx where
  | load
  | store
deriving DecidableEq, Repr

/-- The expression fragment traversed by the analyzer.  `DataFlowAnalyzer` has
no visitor for any expression kind except `Name`, so `generic_visit` descends
through every child; consequently only the tree shape and the Load-context
`Name` leaves matter.  `attr` keeps the attribute name for structure, but the
identifier string of an attribute is not a `Name` node and is never recorded. -/
inductive PExpr where
  | name (id : String) (ctx : Ctx)
  | const
  | call (func : PExpr) (args : List PExpr)
  | binop (left right : PExpr)
  | tupleE (elts : List PExpr)
  | listE (elts : List PExpr)
  | attr (value : PExpr) (attrName : String)
  | subscript (value index : PExpr)

mutual

/-- The set of Load-context names in an expression: exactly what
`self.visit(expr)` adds to `self.current_dependencies` via `visit_Name`
(lines 140-144) while tracking is active, the reset to `set()` having just
happened in the calling statement visitor. -/
def reads : PExpr → Finset String
  | .name id ctx => if ctx = .load then {id} else ∅
  | .const => ∅
  | .call f args => reads f ∪ readsList args
  | .binop l r => reads l ∪ reads r
  | .tupleE es => readsList es
  | .listE es => readsList es
  | .attr v _ => reads v
  | .subscript v i => reads v ∪ reads i

def readsList : List PExpr → Finset String
  | [] => ∅
  | e :: es => reads e ∪ readsList es

end

/-- One record of `self.variables` (line 22):
`{'type': ..., 'dependencies': ..., 'line': ...}`. -/
structure VarInfo where
  vtype : String
  deps : Finset String
  line : Nat
deriving DecidableEq

/-- Python dict assignment `self.variables[name] = info`: replace in place if
the key is present (dicts keep the original insertion position), else append. -/
def setVar (name : String) (info : VarInfo) (vars : List (String × VarInfo)) :
    List (String × VarInfo) :=
  if vars.any (fun p => p.1 = name) then
    vars.map (fun p => if p.1 = name then (name, info) else p)
  else vars ++ [(name, info)]

def lookupVar (name : String) (vars : List (String × VarInfo)) : Option VarInfo :=
  (vars.find? (fun p => p.1 = name)).map (fun p => p.2)

/-- The analyzer state: the insertion-ordered `self.variables` dict and the
`self.in_target_function` flag.  `self.current_dependencies` is reset to a
fresh set at the start of every statement visitor that consults it, so it
needs no cross-statement state here and appears as `reads`. -/
structure AState where
  vars : List (String × VarInfo)
  inTarget : Bool
deriving DecidableEq

def initAState : AState := ⟨[], false⟩

/-- The statement fragment `DataFlowAnalyzer` defines visitors for
(`visit_FunctionDef`, `visit_Assign`, `visit_AugAssign`, `visit_For`,
`visit_With`, `visit_Return`), plus `pass` as a statement the analyzer
ignores.  Assignment targets are expressions (`PExpr`); line numbers carry
Python's `node.lineno`. -/
inductive PStmt where
  | functionDef (name : String) (args : List String) (body : List PStmt) (line : Nat)
  | assign (targets : List PExpr) (value : PExpr) (line : Nat)
  | augAssign (target : PExpr) (value : PExpr) (line : Nat)
  | forStmt (target : PExpr) (iter : PExpr) (body : List PStmt) (line : Nat)
  | withStmt (items : List (PExpr × Option PExpr)) (body : List PStmt) (line : Nat)
  | ret (value : Option PExpr) (line : Nat)
  | pass

/-- Parameter seeding in `visit_FunctionDef` (lines 32-38): every positional
argument becomes a `parameter` record with empty dependencies at the def's
line. -/
def addParams (args : List String) (line : Nat) (vars : List (String × VarInfo)) :
    List (String × VarInfo) :=
  args.foldl (fun vs a => setVar a ⟨"parameter", ∅, line⟩ vs) vars

/-- The per-target arm of `visit_Assign` (lines 56-72): a plain `Name` target
gets the full right-hand-side dependency set; a `Tuple`/`List` target gives
that same set to each element that is itself a plain `Name`, skipping every
other element; any other target kind records nothing. -/
def assignTarget (t : PExpr) (deps : Finset String) (line : Nat)
    (vars : List (String × VarInfo)) : List (String × VarInfo) :=
  match t with
  | .name id _ => setVar id ⟨"variable", deps, line⟩ vars
  | .tupleE elts =>
    elts.foldl
      (fun vs e =>
        match e with
        | .name id _ => setVar id ⟨"variable", deps, line⟩ vs
        | _ => vs)
      vars
  | .listE elts =>
    elts.foldl
      (fun vs e =>
        match e with
        | .name id _ => setVar id ⟨"variable", deps, line⟩ vs
        | _ => vs)
      vars
  | _ => vars

/-- The plain `Name` elements of an unpacking pattern, in order. -/
def namesOf (elts : List PExpr) : List String :=
  elts.filterMap
    (fun e =>
      match e with
      | .name id _ => some id
      | _ => none)

mutual

/-- Dispatch of `DataFlowAnalyzer.visit` on one statement (the visitors at
dfg_generator.py lines 27-160).  Every visitor except `visit_FunctionDef`
returns immediately when `in_target_function` is false; `visit_FunctionDef`
with a non-matching name neither records nor descends (it has no
`generic_visit` call), and with a matching name it activates tracking, seeds
the parameters, visits the body, then sets the flag to False — even when it
was entered for a nested definition inside an already-active body. -/
def visitStmt (fname : String) (st : AState) : PStmt → AState
  | .functionDef name args body line =>
    if name = fname then
      let st2 : AState := ⟨addParams args line st.vars, true⟩
      let st3 := visitStmts fname st2 body
      ⟨st3.vars, false⟩
    else st
  | .assign targets value line =>
    if st.inTarget then
      ⟨targets.foldl (fun vs t => assignTarget t (reads value) line vs) st.vars,
        st.inTarget⟩
    else st
  | .augAssign target value line =>
    if st.inTarget then
      match target with
      | .name id _ =>
        ⟨setVar id ⟨"variable", insert id (reads value), line⟩ st.vars, st.inTarget⟩
      | _ => st
    else st
  | .forStmt target iter body line =>
    if st.inTarget then
      let st1 : AState :=
        match target with
        | .name id _ => ⟨setVar id ⟨"loop_var", reads iter, line⟩ st.vars, st.inTarget⟩
        | _ => st
      visitStmts fname st1 body
    else st
  | .withStmt items body line =>
    if st.inTarget then
      let st1 := items.foldl
        (fun s it =>
          match it.2 with
          | some (.name id _) => ⟨setVar id ⟨"context_var", reads it.1, line⟩ s.vars, s.inTarget⟩
          | _ => s)
        st
      visitStmts fname st1 body
    else st
  | .ret value line =>
    if st.inTarget then
      match value with
      | some v => ⟨setVar "__return__" ⟨"return", reads v, line⟩ st.vars, st.inTarget⟩
      | none => st
    else st
  | .pass => st

def visitStmts (fname : String) (st : AState) : List PStmt → AState
  | [] => st
  | stmt :: rest => visitStmts fname (visitStmt fname st stmt) rest

end

/-- `DataFlowAnalyzer(function_name).visit(ast.parse(code))` followed by
reading off `analyzer.variables`: the module's `generic_visit` feeds each
top-level statement to the dispatcher. -/
def analyzeModule (fname : String) (stmts : List PStmt) : List (String × VarInfo) :=
  (visitStmts fname initAState stmts).vars

/-- `DFGGenerator.generate_dfg` (lines 171-208).  A parse error raises
`SyntaxError`, caught at lines 201-203, and `None` is returned — again an
ordinary value, not a propagated failure.  With a parsed tree, an empty
`analyzer.variables` also yields `None` (lines 188-190); otherwise
`_create_visualization` runs, modelled by the `renderD` oracle (`none` = the
graphviz backend raised, caught by the blanket `except` at lines 204-208 and
turned into `None`). -/
def generateDFG (renderD : String → List (String × VarInfo) → Option String)
    (parsed : Except String (List PStmt)) (functionName : String) :
    Except String (Option String) :=
  match parsed with
  | .error _ => .ok none
  | .ok stmts =>
    let vars := analyzeModule functionName stmts
    if vars.isEmpty then .ok none
    else .ok (renderD functionName vars)

/-- The function names `ast.walk` yields in
`generate_dfg_for_all_functions` (lines 284-286), for the modelled modules
whose function definitions sit at top level. -/
def collectFunctionNames (stmts : List PStmt) : List String :=
  stmts.filterMap
    (fun st =>
      match st with
      | .functionDef name _ _ _ => some name
      | _ => none)

/-- `DFGGenerator.generate_dfg_for_all_functions` (lines 271-300): each
function is handed to `generate_dfg`; only names that came back with a path
are entered into the result dict, and a parse error again produces the empty
dict via the blanket `except`. -/
def generateDFGForAllFunctions (renderD : String → List (String × VarInfo) → Option String)
    (parsed : Except String (List PStmt)) : Except String (List (String × String)) :=
  match parsed with
  | .error _ => .ok []
  | .ok stmts =>
    .ok ((collectFunctionNames stmts).foldl
      (fun result fname =>
        match generateDFG renderD parsed fname with
        | .ok (some p) => setEntry fname p result
        | _ => result)
      [])

/- ===================== invariants and helper definitions ===================== -/

/-- Every node id on the heap was allocated below the current counter. -/
def boundedKeys (s : CFGState) : Prop := ∀ p ∈ s.nodes, p.1 < s.counter

/-- No id addresses two heap entries. -/
def nodupKeys (s : CFGState) : Prop := (s.nodes.map (fun p => p.1)).Nodup

/-- Well-formed builder state (holds for the initial state and is preserved
by every builder step). -/
def wfcState (s : CFGState) : Prop := boundedKeys s ∧ nodupKeys s

/-- The invariant of claim C4: a `return`-kind node has zero successors. -/
def retInv (s : CFGState) : Prop :=
  ∀ p ∈ s.nodes, p.2.node_type = "return" → p.2.succs = []

/-- The invariant of claim C8 (amended): every `statement` and `condition`
node carries a label of at most 50 characters. -/
def labInv (s : CFGState) : Prop :=
  ∀ p ∈ s.nodes, (p.2.node_type = "statement" ∨ p.2.node_type = "condition") →
    p.2.label.length ≤ 50

/-- What one builder call guarantees relative to its starting state: the
counter grows; nodes that existed before the call keep their data (only nodes
allocated by the call itself ever receive successors); well-formedness, the
return-node invariant and the label-bound invariant are preserved; and the
returned `current` is either the incoming continuation or a node allocated
during the call. -/
def buildOK (cur : Option Nat) (s : CFGState) (r : Option Nat × CFGState) : Prop :=
  s.counter ≤ r.2.counter ∧
  (∀ id, id < s.counter → lookupNode r.2 id = lookupNode s id) ∧
  (wfcState s → wfcState r.2) ∧
  (wfcState s → retInv s → retInv r.2) ∧
  (labInv s → labInv r.2) ∧
  (∀ id, r.1 = some id → cur = some id ∨ (s.counter ≤ id ∧ id < r.2.counter))

/-- The state-only part of `buildOK`, for composing intermediate steps. -/
def stateOK (s t : CFGState) : Prop :=
  s.counter ≤ t.counter ∧
  (∀ id, id < s.counter → lookupNode t id = lookupNode s id) ∧
  (wfcState s → wfcState t) ∧
  (wfcState s → retInv s → retInv t) ∧
  (labInv s → labInv t)

/-- The module of the spec's Scenario 2:
`def g(n):  s = 0;  for i in range(n): s += i;  return s`
with the def on line 1 and the statements on lines 2-5. -/
def gModule : List PStmt :=
  [PStmt.functionDef "g" ["n"]
    [PStmt.assign [PExpr.name "s" Ctx.store] PExpr.const 2,
     PStmt.forStmt (PExpr.name "i" Ctx.store)
       (PExpr.call (PExpr.name "range" Ctx.load) [PExpr.name "n" Ctx.load])
       [PStmt.augAssign (PExpr.name "s" Ctx.store) (PExpr.name "i" Ctx.load) 4] 3,
     PStmt.ret (some (PExpr.name "s" Ctx.load)) 5] 1]

/-- A module whose target function `f` contains a nested function definition
with the same name, followed by a further statement of the outer body:
`def f(a):  def f(b): return b;  x = a`. -/
def nestedModule : List PStmt :=
  [PStmt.functionDef "f" ["a"]
    [PStmt.functionDef "f" ["b"] [PStmt.ret (some (PExpr.name "b" Ctx.load)) 3] 2,
     PStmt.assign [PExpr.name "x" Ctx.store] (PExpr.name "a" Ctx.load) 4] 1]

/-- A render oracle under which graphviz fails for function "f" and succeeds
for function "g". -/
def cexRender : String → Nat × CFGState → Option String :=
  fun name _ => if name = "f" then none else some "g.png"

/-- A two-function module: `def f(): return` and `def g(): return`. -/
def twoFuncs : List PyFunctionDef :=
  [⟨"f", [], [CStmt.sret none]⟩, ⟨"g", [], [CStmt.sret none]⟩]

/-- One step of the accumulation pattern shared by `generate_cfg` and
`generate_dfg_for_all_functions`: run an oracle on the item and enter only a
success into the result dict. -/
def collectStep (o : α → Option String) (key : α → String)
    (res : List (String × String)) (a : α) : List (String × String) :=
  match o a with
  | some p => setEntry (key a) p res
  | none => res

/-- The whole accumulation: fold `collectStep` over the items, starting from
the empty dict. -/
def collectResults (o : α → Option String) (key : α → String) (xs : List α) :
    List (String × String) :=
  xs.foldl (collectStep o key) []

/-- The per-function outcome of `generate_dfg` seen from
`generate_dfg_for_all_functions` (always `.ok` for a parsed module). -/
def dfgOutcome (renderD : String → List (String × VarInfo) → Option String)
    (parsed : Except String (List PStmt)) (fname : String) : Option String :=
  match generateDFG renderD parsed fname with
  | .ok o => o
  | .error _ => none

/- ===================== basic lemmas about the heap operations ===================== -/

theorem truncateLabel_length (s : String) : (truncateLabel s).length ≤ 50 := by
  unfold truncateLabel
  split
  · have h1 : (strTake s 47).length = min 47 s.data.length := by
      have he : (strTake s 47).length = (s.data.take 47).length := rfl
      rw [he, List.length_take]
    have h2 : ("..." : String).length = 3 := by decide
    rw [String.length_append, h1, h2]
    omega
  · omega

theorem addSucc_label (nd : CFGNodeData) (dst : Nat) (lbl : String) :
    (addSucc nd dst lbl).label = nd.label := by
  unfold addSucc; split <;> rfl

theorem addSucc_node_type (nd : CFGNodeData) (dst : Nat) (lbl : String) :
    (addSucc nd dst lbl).node_type = nd.node_type := by
  unfold addSucc; split <;> rfl

theorem newNode_counter (l t : String) (s : CFGState) :
    (newNode l t s).2.counter = s.counter + 1 := rfl

theorem newNode_fst (l t : String) (s : CFGState) :
    (newNode l t s).1 = s.counter := rfl

theorem lookupNode_newNode_self (l t : String) (s : CFGState) :
    lookupNode (newNode l t s).2 s.counter = some ⟨l, t, []⟩ := by
  unfold lookupNode newNode
  rw [List.find?_cons_of_pos _ (by simp)]
  rfl

theorem lookupNode_newNode_ne (l t : String) (s : CFGState) (id : Nat)
    (h : id ≠ s.counter) : lookupNode (newNode l t s).2 id = lookupNode s id := by
  unfold lookupNode newNode
  rw [List.find?_cons_of_neg]
  simpa using fun hc => h hc.symm

theorem addSuccessor_counter (src dst : Nat) (lbl : String) (s : CFGState) :
    (addSuccessor src dst lbl s).counter = s.counter := rfl

theorem find?_map_update (nodes : List (Nat × CFGNodeData)) (src dst : Nat)
    (lbl : String) (id : Nat) :
    List.find? (fun p => p.1 = id)
      (nodes.map (fun p => if p.1 = src then (p.1, addSucc p.2 dst lbl) else p)) =
    (List.find? (fun p => p.1 = id) nodes).map
      (fun p => if p.1 = src then (p.1, addSucc p.2 dst lbl) else p) := by
  induction nodes with
  | nil => rfl
  | cons a rest ih =>
    have hkey : (if a.1 = src then (a.1, addSucc a.2 dst lbl) else a).1 = a.1 := by
      by_cases hk : a.1 = src <;> simp [hk]
    simp only [List.map_cons, List.find?_cons, hkey]
    cases hd : decide (a.1 = id) with
    | false => simpa only [hd] using ih
    | true => simp only [hd]; rfl

theorem lookupNode_addSuccessor_ne (src dst : Nat) (lbl : String) (s : CFGState)
    (id : Nat) (h : id ≠ src) :
    lookupNode (addSuccessor src dst lbl s) id = lookupNode s id := by
  unfold lookupNode addSuccessor
  simp only [find?_map_update]
  cases hf : List.find? (fun p => decide (p.1 = id)) s.nodes with
  | none => rfl
  | some p =>
    have hp : p.1 = id := by simpa using List.find?_some hf
    have hps : ¬ p.1 = src := by rw [hp]; exact h
    simp [hps]

theorem lookupNode_addSuccessor_self (src dst : Nat) (lbl : String) (s : CFGState) :
    lookupNode (addSuccessor src dst lbl s) src =
      (lookupNode s src).map (fun nd => addSucc nd dst lbl) := by
  unfold lookupNode addSuccessor
  simp only [find?_map_update]
  cases hf : List.find? (fun p => decide (p.1 = src)) s.nodes with
  | none => rfl
  | some p =>
    have hp : p.1 = src := by simpa using List.find?_some hf
    simp [hp]

theorem boundedKeys_newNode (l t : String) (s : CFGState) (h : boundedKeys s) :
    boundedKeys (newNode l t s).2 := by
  intro p hp
  simp only [newNode, List.mem_cons] at hp
  rcases hp with hp | hp
  · subst hp; simp [newNode]
  · have := h p hp
    simp only [newNode]
    omega

theorem nodupKeys_newNode (l t : String) (s : CFGState) (hb : boundedKeys s)
    (h : nodupKeys s) : nodupKeys (newNode l t s).2 := by
  unfold nodupKeys at *
  simp only [newNode, List.map_cons, List.nodup_cons]
  refine ⟨?_, h⟩
  intro hc
  rcases List.mem_map.mp hc with ⟨q, hq, hkey⟩
  have := hb q hq
  omega

theorem wfcState_newNode (l t : String) (s : CFGState) (h : wfcState s) :
    wfcState (newNode l t s).2 :=
  ⟨boundedKeys_newNode l t s h.1, nodupKeys_newNode l t s h.1 h.2⟩

theorem wfcState_addSuccessor (src dst : Nat) (lbl : String) (s : CFGState)
    (h : wfcState s) : wfcState (addSuccessor src dst lbl s) := by
  constructor
  · intro p hp
    simp only [addSuccessor, List.mem_map] at hp
    rcases hp with ⟨q, hq, hpq⟩
    have hlt := h.1 q hq
    subst hpq
    by_cases hk : q.1 = src
    · simpa [addSuccessor, hk] using hlt
    · simpa [addSuccessor, hk] using hlt
  · have : (addSuccessor src dst lbl s).nodes.map (fun p => p.1) =
        s.nodes.map (fun p => p.1) := by
      simp only [addSuccessor, List.map_map]
      apply List.map_congr_left
      intro p _
      by_cases hk : p.1 = src <;> simp [hk]
    unfold nodupKeys
    rw [this]
    exact h.2

theorem retInv_newNode (l t : String) (s : CFGState) (h : retInv s) :
    retInv (newNode l t s).2 := by
  intro p hp
  simp only [newNode, List.mem_cons] at hp
  rcases hp with hp | hp
  · subst hp; intro; rfl
  · exact h p hp

theorem retInv_addSuccessor (src dst : Nat) (lbl : String) (s : CFGState)
    (h : retInv s) (hty : ∀ q ∈ s.nodes, q.1 = src → q.2.node_type ≠ "return") :
    retInv (addSuccessor src dst lbl s) := by
  intro p hp
  simp only [addSuccessor, List.mem_map] at hp
  rcases hp with ⟨q, hq, hpq⟩
  by_cases hk : q.1 = src
  · intro hret
    subst hpq
    simp only [if_pos hk] at hret ⊢
    rw [addSucc_node_type] at hret
    exact absurd hret (hty q hq hk)
  · subst hpq
    simp only [if_neg hk]
    exact h q hq

theorem labInv_newNode (l t : String) (s : CFGState) (h : labInv s)
    (hl : (t = "statement" ∨ t = "condition") → l.length ≤ 50) :
    labInv (newNode l t s).2 := by
  intro p hp
  simp only [newNode, List.mem_cons] at hp
  rcases hp with hp | hp
  · subst hp; exact hl
  · exact h p hp

theorem labInv_addSuccessor (src dst : Nat) (lbl : String) (s : CFGState)
    (h : labInv s) : labInv (addSuccessor src dst lbl s) := by
  intro p hp
  simp only [addSuccessor, List.mem_map] at hp
  rcases hp with ⟨q, hq, hpq⟩
  by_cases hk : q.1 = src
  · subst hpq
    simp only [if_pos hk, addSucc_node_type, addSucc_label]
    exact h q hq
  · subst hpq
    simp only [if_neg hk]
    exact h q hq

theorem find?_keyed_of_mem_nodup (l : List (Nat × CFGNodeData))
    (h : (l.map (fun p => p.1)).Nodup) (q : Nat × CFGNodeData) (hq : q ∈ l) :
    List.find? (fun p => p.1 = q.1) l = some q := by
  induction l with
  | nil => cases hq
  | cons a rest ih =>
    simp only [List.map_cons, List.nodup_cons] at h
    rcases List.mem_cons.mp hq with hq1 | hq1
    · subst hq1
      simp [List.find?_cons]
    · have hne : ¬ a.1 = q.1 := by
        intro hc
        exact h.1 (hc ▸ List.mem_map.mpr ⟨q, hq1, rfl⟩)
      rw [List.find?_cons_of_neg]
      · exact ih h.2 hq1
      · simpa using hne

theorem lookup_of_mem_nodup (s : CFGState) (h : nodupKeys s) (q : Nat × CFGNodeData)
    (hq : q ∈ s.nodes) : lookupNode s q.1 = some q.2 := by
  unfold lookupNode
  rw [find?_keyed_of_mem_nodup s.nodes h q hq]
  rfl

/- ===================== composition lemmas for builder steps ===================== -/

theorem buildOK_stateOK (cur : Option Nat) (s : CFGState) (r : Option Nat × CFGState)
    (h : buildOK cur s r) : stateOK s r.2 :=
  ⟨h.1, h.2.1, h.2.2.1, h.2.2.2.1, h.2.2.2.2.1⟩

theorem stateOK_refl (s : CFGState) : stateOK s s :=
  ⟨le_refl _, fun _ _ => rfl, id, fun _ h => h, id⟩

theorem stateOK_trans (s t u : CFGState) (h1 : stateOK s t) (h2 : stateOK t u) :
    stateOK s u := by
  refine ⟨le_trans h1.1 h2.1, ?_, fun hw => h2.2.2.1 (h1.2.2.1 hw), ?_,
    fun hl => h2.2.2.2.2 (h1.2.2.2.2 hl)⟩
  · intro id hid
    rw [h2.2.1 id (lt_of_lt_of_le hid h1.1), h1.2.1 id hid]
  · intro hw hr
    exact h2.2.2.2.1 (h1.2.2.1 hw) (h1.2.2.2.1 hw hr)

theorem stateOK_newNode (l t : String) (s : CFGState)
    (hl : (t = "statement" ∨ t = "condition") → l.length ≤ 50) :
    stateOK s (newNode l t s).2 := by
  refine ⟨?_, ?_, wfcState_newNode l t s, fun _ => retInv_newNode l t s,
    fun h => labInv_newNode l t s h hl⟩
  · rw [newNode_counter]; omega
  · intro id hid
    exact lookupNode_newNode_ne l t s id (by omega)

theorem hty_of_lookup (s2 : CFGState) (src : Nat) (nd : CFGNodeData)
    (hl : lookupNode s2 src = some nd) (hnd : nd.node_type ≠ "return") :
    wfcState s2 → ∀ q ∈ s2.nodes, q.1 = src → q.2.node_type ≠ "return" := by
  intro hw q hq hk
  have h3 := lookup_of_mem_nodup s2 hw.2 q hq
  rw [hk] at h3
  rw [hl] at h3
  injection h3 with h4
  rw [← h4]
  exact hnd

theorem stateOK_addSuccessor_after (s s2 : CFGState) (src dst : Nat) (lbl : String)
    (h12 : stateOK s s2) (hsrc : s.counter ≤ src)
    (hty : wfcState s → ∀ q ∈ s2.nodes, q.1 = src → q.2.node_type ≠ "return") :
    stateOK s (addSuccessor src dst lbl s2) := by
  refine ⟨?_, ?_, ?_, ?_, ?_⟩
  · rw [addSuccessor_counter]; exact h12.1
  · intro id hid
    rw [lookupNode_addSuccessor_ne _ _ _ _ id (by omega), h12.2.1 id hid]
  · intro hw
    exact wfcState_addSuccessor _ _ _ _ (h12.2.2.1 hw)
  · intro hw hr
    exact retInv_addSuccessor _ _ _ _ (h12.2.2.2.1 hw hr) (hty hw)
  · intro hlab
    exact labInv_addSuccessor _ _ _ _ (h12.2.2.2.2 hlab)

theorem buildOK_finish (cur : Option Nat) (s t : CFGState)
    (hst : stateOK s t) (hcnt : s.counter < t.counter) :
    buildOK cur s (some s.counter, t) := by
  refine ⟨hst.1, hst.2.1, hst.2.2.1, hst.2.2.2.1, hst.2.2.2.2, ?_⟩
  intro id hid
  have h : s.counter = id := by simpa using hid
  subst h
  exact Or.inr ⟨le_refl _, hcnt⟩

theorem buildOK_finish_link (cur : Option Nat) (s t : CFGState) (dst : Nat)
    (lbl : String) (nd : CFGNodeData) (hst : stateOK s t)
    (hcnt : s.counter < t.counter) (hlook : lookupNode t s.counter = some nd)
    (hnd : nd.node_type ≠ "return") :
    buildOK cur s (some s.counter, addSuccessor s.counter dst lbl t) := by
  refine buildOK_finish cur s _ ?_ ?_
  · exact stateOK_addSuccessor_after s t s.counter dst lbl hst (le_refl _)
      (fun hw => hty_of_lookup t s.counter nd hlook hnd (hst.2.2.1 hw))
  · rw [addSuccessor_counter]; exact hcnt

theorem buildOK_finish_link2 (cur : Option Nat) (s t : CFGState) (d1 d2 : Nat)
    (l1 l2 : String) (nd : CFGNodeData) (hst : stateOK s t)
    (hcnt : s.counter < t.counter) (hlook : lookupNode t s.counter = some nd)
    (hnd : nd.node_type ≠ "return") :
    buildOK cur s
      (some s.counter, addSuccessor s.counter d2 l2 (addSuccessor s.counter d1 l1 t)) := by
  refine buildOK_finish_link cur s (addSuccessor s.counter d1 l1 t) d2 l2
    (addSucc nd d1 l1) ?_ ?_ ?_ ?_
  · exact stateOK_addSuccessor_after s t s.counter d1 l1 hst (le_refl _)
      (fun hw => hty_of_lookup t s.counter nd hlook hnd (hst.2.2.1 hw))
  · rw [addSuccessor_counter]; exact hcnt
  · rw [lookupNode_addSuccessor_self, hlook]; rfl
  · rw [addSucc_node_type]; exact hnd

theorem mk_node_type (l t : String) (su : List (Nat × String)) :
    (CFGNodeData.mk l t su).node_type = t := rfl

mutual

/-- Master invariant theorem for one statement: every step of the builder
satisfies `buildOK` relative to its starting state. -/
theorem buildStmt_ok : ∀ (stmt : CStmt) (cur : Option Nat) (s : CFGState),
    buildOK cur s (buildStmt stmt cur s)
  | .sif test body orelse, cur, s => by
    simp only [buildStmt, newNode_fst]
    have hst1 := stateOK_newNode (truncateLabel ("if " ++ test)) "condition" s
      (fun _ => truncateLabel_length _)
    set s1 := (newNode (truncateLabel ("if " ++ test)) "condition" s).2 with hs1
    have hc1 : s1.counter = s.counter + 1 := by rw [hs1, newNode_counter]
    have hIHb := buildStmts_ok body cur s1
    set rT := buildStmts body cur s1 with hrT
    have hstT : stateOK s rT.2 := stateOK_trans _ _ _ hst1 (buildOK_stateOK _ _ _ hIHb)
    have hcntT : s.counter < rT.2.counter := by
      have h1 := hIHb.1
      omega
    have hlookT : lookupNode rT.2 s.counter =
        some ⟨truncateLabel ("if " ++ test), "condition", []⟩ := by
      rw [hIHb.2.1 s.counter (by omega), hs1]
      exact lookupNode_newNode_self _ _ _
    cases hb : rT.1 with
    | some b =>
      have hst3 : stateOK s (addSuccessor s.counter b "True" rT.2) :=
        stateOK_addSuccessor_after s rT.2 s.counter b "True" hstT (le_refl _)
          (fun hw => hty_of_lookup rT.2 s.counter _ hlookT (by rw [mk_node_type]; decide) (hstT.2.2.1 hw))
      have hcnt3 : s.counter < (addSuccessor s.counter b "True" rT.2).counter := by
        rw [addSuccessor_counter]; exact hcntT
      have hlook3 : lookupNode (addSuccessor s.counter b "True" rT.2) s.counter =
          some (addSucc ⟨truncateLabel ("if " ++ test), "condition", []⟩ b "True") := by
        rw [lookupNode_addSuccessor_self, hlookT]; rfl
      cases ho : orelse.isEmpty with
      | true =>
        cases cur with
        | some n =>
          exact buildOK_finish_link _ s _ n "False" _ hst3 hcnt3 hlook3
            (by rw [addSucc_node_type, mk_node_type]; decide)
        | none => exact buildOK_finish _ s _ hst3 hcnt3
      | false =>
        have hIHo := buildStmts_ok orelse cur (addSuccessor s.counter b "True" rT.2)
        set rF := buildStmts orelse cur (addSuccessor s.counter b "True" rT.2) with hrF
        have hstF : stateOK s rF.2 := stateOK_trans _ _ _ hst3 (buildOK_stateOK _ _ _ hIHo)
        have hcntF : s.counter < rF.2.counter := by
          have h1 := hIHo.1
          rw [addSuccessor_counter] at h1
          omega
        have hlookF : lookupNode rF.2 s.counter =
            some (addSucc ⟨truncateLabel ("if " ++ test), "condition", []⟩ b "True") := by
          rw [hIHo.2.1 s.counter (by rw [addSuccessor_counter]; omega)]
          exact hlook3
        cases hf : rF.1 with
        | some f =>
          exact buildOK_finish_link _ s _ f "False" _ hstF hcntF hlookF
            (by rw [addSucc_node_type, mk_node_type]; decide)
        | none =>
          cases cur with
          | some n =>
            exact buildOK_finish_link _ s _ n "False" _ hstF hcntF hlookF
              (by rw [addSucc_node_type, mk_node_type]; decide)
          | none => exact buildOK_finish _ s _ hstF hcntF
    | none =>
      cases cur with
      | some n =>
        have hst3 : stateOK s (addSuccessor s.counter n "True" rT.2) :=
          stateOK_addSuccessor_after s rT.2 s.counter n "True" hstT (le_refl _)
            (fun hw => hty_of_lookup rT.2 s.counter _ hlookT (by rw [mk_node_type]; decide) (hstT.2.2.1 hw))
        have hcnt3 : s.counter < (addSuccessor s.counter n "True" rT.2).counter := by
          rw [addSuccessor_counter]; exact hcntT
        have hlook3 : lookupNode (addSuccessor s.counter n "True" rT.2) s.counter =
            some (addSucc ⟨truncateLabel ("if " ++ test), "condition", []⟩ n "True") := by
          rw [lookupNode_addSuccessor_self, hlookT]; rfl
        cases ho : orelse.isEmpty with
        | true =>
          exact buildOK_finish_link _ s _ n "False" _ hst3 hcnt3 hlook3
            (by rw [addSucc_node_type, mk_node_type]; decide)
        | false =>
          have hIHo := buildStmts_ok orelse (some n) (addSuccessor s.counter n "True" rT.2)
          set rF := buildStmts orelse (some n) (addSuccessor s.counter n "True" rT.2) with hrF
          have hstF : stateOK s rF.2 := stateOK_trans _ _ _ hst3 (buildOK_stateOK _ _ _ hIHo)
          have hcntF : s.counter < rF.2.counter := by
            have h1 := hIHo.1
            rw [addSuccessor_counter] at h1
            omega
          have hlookF : lookupNode rF.2 s.counter =
              some (addSucc ⟨truncateLabel ("if " ++ test), "condition", []⟩ n "True") := by
            rw [hIHo.2.1 s.counter (by rw [addSuccessor_counter]; omega)]
            exact hlook3
          cases hf : rF.1 with
          | some f =>
            exact buildOK_finish_link _ s _ f "False" _ hstF hcntF hlookF
              (by rw [addSucc_node_type, mk_node_type]; decide)
          | none =>
            exact buildOK_finish_link _ s _ n "False" _ hstF hcntF hlookF
              (by rw [addSucc_node_type, mk_node_type]; decide)
      | none =>
        cases ho : orelse.isEmpty with
        | true =>
          exact buildOK_finish _ s _ hstT hcntT
        | false =>
          have hIHo := buildStmts_ok orelse none rT.2
          set rF := buildStmts orelse none rT.2 with hrF
          have hstF : stateOK s rF.2 := stateOK_trans _ _ _ hstT (buildOK_stateOK _ _ _ hIHo)
          have hcntF : s.counter < rF.2.counter := by
            have h1 := hIHo.1
            omega
          have hlookF : lookupNode rF.2 s.counter =
              some ⟨truncateLabel ("if " ++ test), "condition", []⟩ := by
            rw [hIHo.2.1 s.counter (by omega)]
            exact hlookT
          cases hf : rF.1 with
          | some f =>
            exact buildOK_finish_link _ s _ f "False" _ hstF hcntF hlookF (by rw [mk_node_type]; decide)
          | none =>
            exact buildOK_finish _ s _ hstF hcntF
  | .swhile test body, cur, s => by
    simp only [buildStmt, newNode_fst]
    have hst1 := stateOK_newNode (truncateLabel ("while " ++ test)) "condition" s
      (fun _ => truncateLabel_length _)
    set s1 := (newNode (truncateLabel ("while " ++ test)) "condition" s).2 with hs1
    have hc1 : s1.counter = s.counter + 1 := by rw [hs1, newNode_counter]
    have hIHb := buildStmts_ok body (some s.counter) s1
    set rB := buildStmts body (some s.counter) s1 with hrB
    have hstB : stateOK s rB.2 := stateOK_trans _ _ _ hst1 (buildOK_stateOK _ _ _ hIHb)
    have hcntB : s.counter < rB.2.counter := by
      have h1 := hIHb.1
      omega
    have hlookB : lookupNode rB.2 s.counter =
        some ⟨truncateLabel ("while " ++ test), "condition", []⟩ := by
      rw [hIHb.2.1 s.counter (by omega), hs1]
      exact lookupNode_newNode_self _ _ _
    cases hb : rB.1 with
    | some b =>
      cases cur with
      | some n =>
        exact buildOK_finish_link2 _ s _ b n "True" "False" _ hstB hcntB hlookB (by rw [mk_node_type]; decide)
      | none =>
        exact buildOK_finish_link _ s _ b "True" _ hstB hcntB hlookB (by rw [mk_node_type]; decide)
    | none =>
      cases cur with
      | some n =>
        exact buildOK_finish_link2 _ s _ s.counter n "True" "False" _ hstB hcntB hlookB
          (by rw [mk_node_type]; decide)
      | none =>
        exact buildOK_finish_link _ s _ s.counter "True" _ hstB hcntB hlookB (by rw [mk_node_type]; decide)
  | .sfor target iter body, cur, s => by
    simp only [buildStmt, newNode_fst]
    have hst1 := stateOK_newNode (truncateLabel ("for " ++ target ++ " in " ++ iter))
      "condition" s (fun _ => truncateLabel_length _)
    set s1 := (newNode (truncateLabel ("for " ++ target ++ " in " ++ iter)) "condition" s).2
      with hs1
    have hc1 : s1.counter = s.counter + 1 := by rw [hs1, newNode_counter]
    have hIHb := buildStmts_ok body (some s.counter) s1
    set rB := buildStmts body (some s.counter) s1 with hrB
    have hstB : stateOK s rB.2 := stateOK_trans _ _ _ hst1 (buildOK_stateOK _ _ _ hIHb)
    have hcntB : s.counter < rB.2.counter := by
      have h1 := hIHb.1
      omega
    have hlookB : lookupNode rB.2 s.counter =
        some ⟨truncateLabel ("for " ++ target ++ " in " ++ iter), "condition", []⟩ := by
      rw [hIHb.2.1 s.counter (by omega), hs1]
      exact lookupNode_newNode_self _ _ _
    cases hb : rB.1 with
    | some b =>
      cases cur with
      | some n =>
        exact buildOK_finish_link2 _ s _ b n "iterate" "done" _ hstB hcntB hlookB (by rw [mk_node_type]; decide)
      | none =>
        exact buildOK_finish_link _ s _ b "iterate" _ hstB hcntB hlookB (by rw [mk_node_type]; decide)
    | none =>
      cases cur with
      | some n =>
        exact buildOK_finish_link2 _ s _ s.counter n "iterate" "done" _ hstB hcntB hlookB
          (by rw [mk_node_type]; decide)
      | none =>
        exact buildOK_finish_link _ s _ s.counter "iterate" _ hstB hcntB hlookB (by rw [mk_node_type]; decide)
  | .sret v, cur, s => by
    simp only [buildStmt, newNode_fst]
    exact buildOK_finish cur s _
      (stateOK_newNode _ "return" s
        (fun h => by rcases h with h | h <;> exact absurd h (by decide)))
      (by rw [newNode_counter]; omega)
  | .sbreak, cur, s => by
    simp only [buildStmt, newNode_fst]
    cases cur with
    | none =>
      exact buildOK_finish none s _
        (stateOK_newNode "break" "control" s
          (fun h => by rcases h with h | h <;> exact absurd h (by decide)))
        (by rw [newNode_counter]; omega)
    | some c =>
      exact buildOK_finish_link (some c) s _ c "" ⟨"break", "control", []⟩
        (stateOK_newNode "break" "control" s
          (fun h => by rcases h with h | h <;> exact absurd h (by decide)))
        (by rw [newNode_counter]; omega)
        (lookupNode_newNode_self _ _ _)
        (by rw [mk_node_type]; decide)
  | .scontinue, cur, s => by
    simp only [buildStmt, newNode_fst]
    cases cur with
    | none =>
      exact buildOK_finish none s _
        (stateOK_newNode "continue" "control" s
          (fun h => by rcases h with h | h <;> exact absurd h (by decide)))
        (by rw [newNode_counter]; omega)
    | some c =>
      exact buildOK_finish_link (some c) s _ c "" ⟨"continue", "control", []⟩
        (stateOK_newNode "continue" "control" s
          (fun h => by rcases h with h | h <;> exact absurd h (by decide)))
        (by rw [newNode_counter]; omega)
        (lookupNode_newNode_self _ _ _)
        (by rw [mk_node_type]; decide)
  | .sother text, cur, s => by
    simp only [buildStmt, newNode_fst]
    cases cur with
    | none =>
      exact buildOK_finish none s _
        (stateOK_newNode (truncateLabel text) "statement" s
          (fun _ => truncateLabel_length _))
        (by rw [newNode_counter]; omega)
    | some c =>
      exact buildOK_finish_link (some c) s _ c "" ⟨truncateLabel text, "statement", []⟩
        (stateOK_newNode (truncateLabel text) "statement" s
          (fun _ => truncateLabel_length _))
        (by rw [newNode_counter]; omega)
        (lookupNode_newNode_self _ _ _)
        (by rw [mk_node_type]; decide)

/-- Master invariant theorem for a statement list. -/
theorem buildStmts_ok : ∀ (stmts : List CStmt) (next : Option Nat) (s : CFGState),
    buildOK next s (buildStmts stmts next s)
  | [], next, s => by
    simp only [buildStmts]
    exact ⟨le_refl _, fun _ _ => rfl, id, fun _ h => h, id, fun id h => Or.inl h⟩
  | stmt :: rest, next, s => by
    have h1 := buildStmts_ok rest next s
    have h2 := buildStmt_ok stmt (buildStmts rest next s).1 (buildStmts rest next s).2
    simp only [buildStmts]
    refine ⟨le_trans h1.1 h2.1, ?_, fun hw => h2.2.2.1 (h1.2.2.1 hw),
      fun hw hr => h2.2.2.2.1 (h1.2.2.1 hw) (h1.2.2.2.1 hw hr),
      fun hl => h2.2.2.2.2.1 (h1.2.2.2.2.1 hl), ?_⟩
    · intro id hid
      rw [h2.2.1 id (lt_of_lt_of_le hid h1.1), h1.2.1 id hid]
    · intro id hid
      rcases h2.2.2.2.2.2 id hid with hc | hc
      · rcases h1.2.2.2.2.2 id hc with hn | hn
        · exact Or.inl hn
        · exact Or.inr ⟨hn.1, lt_of_lt_of_le hn.2 h2.1⟩
      · exact Or.inr ⟨le_trans h1.1 hc.1, hc.2⟩

end

theorem buildStmts_append (xs : List CStmt) (x : CStmt) (next : Option Nat)
    (s : CFGState) :
    buildStmts (xs ++ [x]) next s =
      buildStmts xs (buildStmt x next s).1 (buildStmt x next s).2 := by
  induction xs with
  | nil => rfl
  | cons a rest ih =>
    simp only [List.cons_append, buildStmts]
    rw [List.append_eq, ih]

theorem buildStmt_fst_isSome (stmt : CStmt) (cur : Option Nat) (s : CFGState) :
    (buildStmt stmt cur s).1.isSome := by
  cases stmt <;> first
    | rfl
    | (cases cur <;> rfl)

theorem buildStmts_fst_isSome (stmts : List CStmt) (n0 : Nat) (s : CFGState) :
    (buildStmts stmts (some n0) s).1.isSome := by
  cases stmts with
  | nil => rfl
  | cons a rest => exact buildStmt_fst_isSome a _ _

theorem retInv_buildCFGFromFunction (name : String) (args : List String)
    (body : List CStmt) (c : Nat) :
    retInv (buildCFGFromFunction name args body c).2 := by
  have hw0 : wfcState (⟨0, initCFGState.nodes⟩ : CFGState) := by
    constructor
    · intro p hp; cases hp
    · exact List.nodup_nil
  have hr0 : retInv (⟨0, initCFGState.nodes⟩ : CFGState) := fun p hp => by cases hp
  have hwe := wfcState_newNode ("def " ++ name ++ "(" ++ joinArgs args ++ ")")
    "entry" (⟨0, initCFGState.nodes⟩ : CFGState) hw0
  have hre := retInv_newNode ("def " ++ name ++ "(" ++ joinArgs args ++ ")")
    "entry" (⟨0, initCFGState.nodes⟩ : CFGState) hr0
  cases body with
  | nil => exact hre
  | cons b rest =>
    simp only [buildCFGFromFunction]
    have hIH := buildStmts_ok (b :: rest) none
      (newNode ("def " ++ name ++ "(" ++ joinArgs args ++ ")") "entry"
        ⟨0, initCFGState.nodes⟩).2
    cases hf : (buildStmts (b :: rest) none
        (newNode ("def " ++ name ++ "(" ++ joinArgs args ++ ")") "entry"
          ⟨0, initCFGState.nodes⟩).2).1 with
    | none => exact hIH.2.2.2.1 hwe hre
    | some f =>
      refine retInv_addSuccessor _ _ _ _ (hIH.2.2.2.1 hwe hre) ?_
      have hlooke : lookupNode (buildStmts (b :: rest) none
          (newNode ("def " ++ name ++ "(" ++ joinArgs args ++ ")") "entry"
            ⟨0, initCFGState.nodes⟩).2).2 0 =
          some ⟨"def " ++ name ++ "(" ++ joinArgs args ++ ")", "entry", []⟩ := by
        rw [hIH.2.1 0 (by rw [newNode_counter]; exact Nat.succ_pos _)]
        exact lookupNode_newNode_self _ _ _
      exact hty_of_lookup _ _ _ hlooke (by rw [mk_node_type]; decide) (hIH.2.2.1 hwe)

theorem while_plain_tail_backedge (test text : String) (body0 : List CStmt)
    (cur : Option Nat) (s : CFGState)
    (hcur : ∀ n, cur = some n → n < s.counter) :
    lookupNode (buildStmt (CStmt.swhile test (body0 ++ [CStmt.sother text])) cur s).2
        (s.counter + 1) =
      some ⟨truncateLabel text, "statement", [(s.counter, "")]⟩ ∧
    (∀ n, cur = some n →
      ∃ nd, lookupNode (buildStmt (CStmt.swhile test (body0 ++ [CStmt.sother text])) cur s).2
          s.counter = some nd ∧ (n, "False") ∈ nd.succs) := by
  simp only [buildStmt, newNode_fst]
  rw [buildStmts_append]
  simp only [buildStmt, newNode_fst, newNode_counter]
  have h0 : lookupNode (newNode (truncateLabel text) "statement"
      (newNode (truncateLabel ("while " ++ test)) "condition" s).2).2 (s.counter + 1) =
      some ⟨truncateLabel text, "statement", []⟩ :=
    lookupNode_newNode_self _ _ _
  have h1 : lookupNode (addSuccessor (s.counter + 1) s.counter ""
      (newNode (truncateLabel text) "statement"
        (newNode (truncateLabel ("while " ++ test)) "condition" s).2).2) (s.counter + 1) =
      some ⟨truncateLabel text, "statement", [(s.counter, "")]⟩ := by
    rw [lookupNode_addSuccessor_self, h0]
    rfl
  have h2 : lookupNode (addSuccessor (s.counter + 1) s.counter ""
      (newNode (truncateLabel text) "statement"
        (newNode (truncateLabel ("while " ++ test)) "condition" s).2).2) s.counter =
      some ⟨truncateLabel ("while " ++ test), "condition", []⟩ := by
    rw [lookupNode_addSuccessor_ne _ _ _ _ _ (by omega),
      lookupNode_newNode_ne _ _ _ _ (by rw [newNode_counter]; omega)]
    exact lookupNode_newNode_self _ _ _
  have hIH := buildStmts_ok body0 (some (s.counter + 1))
    (addSuccessor (s.counter + 1) s.counter ""
      (newNode (truncateLabel text) "statement"
        (newNode (truncateLabel ("while " ++ test)) "condition" s).2).2)
  have hcnt2 : (addSuccessor (s.counter + 1) s.counter ""
      (newNode (truncateLabel text) "statement"
        (newNode (truncateLabel ("while " ++ test)) "condition" s).2).2).counter =
      s.counter + 2 := rfl
  have h3 : lookupNode (buildStmts body0 (some (s.counter + 1))
      (addSuccessor (s.counter + 1) s.counter ""
        (newNode (truncateLabel text) "statement"
          (newNode (truncateLabel ("while " ++ test)) "condition" s).2).2)).2
      (s.counter + 1) = some ⟨truncateLabel text, "statement", [(s.counter, "")]⟩ := by
    rw [hIH.2.1 (s.counter + 1) (by rw [hcnt2]; omega)]
    exact h1
  have h4 : lookupNode (buildStmts body0 (some (s.counter + 1))
      (addSuccessor (s.counter + 1) s.counter ""
        (newNode (truncateLabel text) "statement"
          (newNode (truncateLabel ("while " ++ test)) "condition" s).2).2)).2
      s.counter = some ⟨truncateLabel ("while " ++ test), "condition", []⟩ := by
    rw [hIH.2.1 s.counter (by rw [hcnt2]; omega)]
    exact h2
  have hbs := buildStmts_fst_isSome body0 (s.counter + 1)
    (addSuccessor (s.counter + 1) s.counter ""
      (newNode (truncateLabel text) "statement"
        (newNode (truncateLabel ("while " ++ test)) "condition" s).2).2)
  obtain ⟨b, hb⟩ := Option.isSome_iff_exists.mp hbs
  have hble : s.counter + 1 ≤ b := by
    rcases hIH.2.2.2.2.2 b hb with hc | hc
    · injection hc with hc1
      omega
    · rw [hcnt2] at hc
      omega
  simp only [hb]
  cases cur with
  | none =>
    refine ⟨?_, ?_⟩
    · rw [lookupNode_addSuccessor_ne _ _ _ _ _ (by omega)]
      exact h3
    · intro n hn
      cases hn
  | some n0 =>
    have hn0 : n0 < s.counter := hcur n0 rfl
    have hbn : ¬ (b = n0) := by omega
    refine ⟨?_, ?_⟩
    · rw [lookupNode_addSuccessor_ne _ _ _ _ _ (by omega),
        lookupNode_addSuccessor_ne _ _ _ _ _ (by omega)]
      exact h3
    · intro n hn
      have hn1 : n0 = n := by injection hn
      cases hn1
      refine ⟨⟨truncateLabel ("while " ++ test), "condition", [(b, "True"), (n0, "False")]⟩,
        ?_, ?_⟩
      · have hstep1 : addSucc ⟨truncateLabel ("while " ++ test), "condition", []⟩ b "True" =
            ⟨truncateLabel ("while " ++ test), "condition", [(b, "True")]⟩ := rfl
        have hanyf : (([(b, "True")] : List (Nat × String)).any (fun p => p.1 = n0)) = false := by
          simp only [List.any_cons, List.any_nil, Bool.or_false]
          exact decide_eq_false hbn
        have hstep2 : addSucc ⟨truncateLabel ("while " ++ test), "condition", [(b, "True")]⟩
            n0 "False" =
            ⟨truncateLabel ("while " ++ test), "condition", [(b, "True"), (n0, "False")]⟩ := by
          unfold addSucc
          rw [if_neg (by rw [hanyf]; exact Bool.false_ne_true)]
          rfl
        rw [lookupNode_addSuccessor_self, lookupNode_addSuccessor_self, h4]
        show some (addSucc (addSucc ⟨truncateLabel ("while " ++ test), "condition", []⟩
          b "True") n0 "False") = _
        rw [hstep1, hstep2]
      · simp

/- ===================== dict (association list) lemmas ===================== -/

theorem find?_append_of_none {α : Type} (p : α → Bool) (l1 l2 : List α)
    (h : l1.find? p = none) : (l1 ++ l2).find? p = l2.find? p := by
  induction l1 with
  | nil => rfl
  | cons a rest ih =>
    cases hp : p a with
    | false =>
      have hp2 : ¬ p a = true := by simp [hp]
      have hr : rest.find? p = none := by
        rw [List.find?_cons_of_neg _ hp2] at h
        exact h
      rw [List.cons_append, List.find?_cons_of_neg _ hp2]
      exact ih hr
    | true =>
      rw [List.find?_cons_of_pos _ hp] at h
      cases h

theorem find?_append_of_some {α : Type} (p : α → Bool) (l1 l2 : List α) (a : α)
    (h : l1.find? p = some a) : (l1 ++ l2).find? p = some a := by
  induction l1 with
  | nil => cases h
  | cons b rest ih =>
    cases hp : p b with
    | false =>
      have hp2 : ¬ p b = true := by simp [hp]
      rw [List.find?_cons_of_neg _ hp2] at h
      rw [List.cons_append, List.find?_cons_of_neg _ hp2]
      exact ih h
    | true =>
      rw [List.find?_cons_of_pos _ hp] at h
      rw [List.cons_append, List.find?_cons_of_pos _ hp]
      exact h

theorem find?_key_map_self {β : Type} (vs : List (String × β)) (k : String) (v : β)
    (hany : vs.any (fun p => p.1 = k) = true) :
    List.find? (fun p => p.1 = k) (vs.map (fun p => if p.1 = k then (k, v) else p)) =
      some (k, v) := by
  induction vs with
  | nil => cases hany
  | cons a rest ih =>
    by_cases ha : a.1 = k
    · simp [List.find?_cons, ha]
    · have hr : rest.any (fun p => p.1 = k) = true := by
        simpa [List.any_cons, ha] using hany
      simp only [List.map_cons, if_neg ha]
      rw [List.find?_cons_of_neg _ (by simpa using ha)]
      exact ih hr

theorem find?_key_map_ne {β : Type} (vs : List (String × β)) (k k' : String) (v : β)
    (hne : k ≠ k') :
    List.find? (fun p => p.1 = k) (vs.map (fun p => if p.1 = k' then (k', v) else p)) =
      List.find? (fun p => p.1 = k) vs := by
  induction vs with
  | nil => rfl
  | cons a rest ih =>
    by_cases ha : a.1 = k'
    · have h1 : ¬((k' : String) = k) := fun hc => hne hc.symm
      have h2 : ¬(a.1 = k) := by rw [ha]; exact h1
      simp only [List.map_cons, if_pos ha]
      rw [List.find?_cons_of_neg _ (by simpa using h1),
        List.find?_cons_of_neg _ (by simpa using h2)]
      exact ih
    · simp only [List.map_cons, if_neg ha]
      by_cases hak : a.1 = k
      · rw [List.find?_cons_of_pos _ (by simpa using hak),
          List.find?_cons_of_pos _ (by simpa using hak)]
      · rw [List.find?_cons_of_neg _ (by simpa using hak),
          List.find?_cons_of_neg _ (by simpa using hak)]
        exact ih

theorem lookupVar_setVar_self (k : String) (info : VarInfo)
    (vs : List (String × VarInfo)) :
    lookupVar k (setVar k info vs) = some info := by
  unfold lookupVar setVar
  by_cases h : vs.any (fun p => p.1 = k) = true
  · rw [if_pos h, find?_key_map_self vs k info h]
    rfl
  · rw [if_neg h]
    have hnone : vs.find? (fun p => p.1 = k) = none := by
      rw [List.find?_eq_none]
      intro x hx
      intro hc
      exact h (List.any_eq_true.mpr ⟨x, hx, hc⟩)
    rw [find?_append_of_none _ _ _ hnone,
      List.find?_cons_of_pos _ (by simp)]
    rfl

theorem lookupVar_setVar_ne (k k' : String) (info : VarInfo)
    (vs : List (String × VarInfo)) (hne : k ≠ k') :
    lookupVar k (setVar k' info vs) = lookupVar k vs := by
  unfold lookupVar setVar
  by_cases h : vs.any (fun p => p.1 = k') = true
  · rw [if_pos h, find?_key_map_ne vs k k' info hne]
  · rw [if_neg h]
    cases hf : vs.find? (fun p => p.1 = k) with
    | none =>
      rw [find?_append_of_none _ _ _ hf,
        List.find?_cons_of_neg _ (by simpa using fun hc => hne hc.symm)]
      rfl
    | some a =>
      rw [find?_append_of_some _ _ _ _ hf]

/- ===================== unpacking-assignment lemmas (C10) ===================== -/

theorem foldl_setNames_not_mem (elts : List PExpr) (deps : Finset String) (line : Nat)
    (vs : List (String × VarInfo)) (id : String) (hid : id ∉ namesOf elts) :
    lookupVar id (elts.foldl
      (fun vs e =>
        match e with
        | PExpr.name i _ => setVar i ⟨"variable", deps, line⟩ vs
        | _ => vs) vs) = lookupVar id vs := by
  induction elts generalizing vs with
  | nil => rfl
  | cons e rest ih =>
    rw [List.foldl_cons]
    cases e with
    | name i ctx =>
      have h1 : ¬ (id = i ∨ id ∈ namesOf rest) := by simpa [namesOf] using hid
      rw [ih (setVar i ⟨"variable", deps, line⟩ vs) (fun hc => h1 (Or.inr hc))]
      exact lookupVar_setVar_ne id i _ vs (fun hc => h1 (Or.inl hc))
    | const => exact ih vs (by simpa [namesOf] using hid)
    | call f args => exact ih vs (by simpa [namesOf] using hid)
    | binop l r => exact ih vs (by simpa [namesOf] using hid)
    | tupleE es => exact ih vs (by simpa [namesOf] using hid)
    | listE es => exact ih vs (by simpa [namesOf] using hid)
    | attr v an => exact ih vs (by simpa [namesOf] using hid)
    | subscript v ix => exact ih vs (by simpa [namesOf] using hid)

theorem foldl_setNames_mem (elts : List PExpr) (deps : Finset String) (line : Nat)
    (vs : List (String × VarInfo)) (id : String) (hid : id ∈ namesOf elts) :
    lookupVar id (elts.foldl
      (fun vs e =>
        match e with
        | PExpr.name i _ => setVar i ⟨"variable", deps, line⟩ vs
        | _ => vs) vs) = some ⟨"variable", deps, line⟩ := by
  induction elts generalizing vs with
  | nil => cases hid
  | cons e rest ih =>
    rw [List.foldl_cons]
    cases e with
    | name i ctx =>
      by_cases hrest : id ∈ namesOf rest
      · exact ih _ hrest
      · have hii : id = i := by
          have h2 : id = i ∨ id ∈ namesOf rest := by simpa [namesOf] using hid
          tauto
        subst hii
        rw [foldl_setNames_not_mem rest deps line _ id hrest]
        exact lookupVar_setVar_self id _ vs
    | const => exact ih vs (by simpa [namesOf] using hid)
    | call f args => exact ih vs (by simpa [namesOf] using hid)
    | binop l r => exact ih vs (by simpa [namesOf] using hid)
    | tupleE es => exact ih vs (by simpa [namesOf] using hid)
    | listE es => exact ih vs (by simpa [namesOf] using hid)
    | attr v an => exact ih vs (by simpa [namesOf] using hid)
    | subscript v ix => exact ih vs (by simpa [namesOf] using hid)

/- ===================== result-dict lemmas (C6) ===================== -/

theorem mem_setEntry_self (k v : String) (l : List (String × String)) :
    (k, v) ∈ setEntry k v l := by
  unfold setEntry
  by_cases h : l.any (fun p => p.1 = k) = true
  · rw [if_pos h]
    rcases List.any_eq_true.mp h with ⟨p, hp, hpk⟩
    refine List.mem_map.mpr ⟨p, hp, ?_⟩
    rw [if_pos (by simpa using hpk)]
  · rw [if_neg h]
    exact List.mem_append.mpr (Or.inr (by simp))

theorem mem_setEntry_of_ne (k v k' v' : String) (l : List (String × String))
    (hne : k ≠ k') (h : (k, v) ∈ l) : (k, v) ∈ setEntry k' v' l := by
  unfold setEntry
  by_cases ha : l.any (fun p => p.1 = k') = true
  · rw [if_pos ha]
    exact List.mem_map.mpr ⟨(k, v), h, by simp [hne]⟩
  · rw [if_neg ha]
    exact List.mem_append.mpr (Or.inl h)

theorem keys_setEntry (k' v' : String) (l : List (String × String)) (a : String)
    (ha : a ∈ (setEntry k' v' l).map (fun q => q.1)) :
    a ∈ l.map (fun q => q.1) ∨ a = k' := by
  unfold setEntry at ha
  by_cases h : l.any (fun p => p.1 = k') = true
  · rw [if_pos h] at ha
    rcases List.mem_map.mp ha with ⟨p, hp, hpa⟩
    rcases List.mem_map.mp hp with ⟨q, hq, hqp⟩
    by_cases hk : q.1 = k'
    · right
      rw [← hpa, ← hqp]
      simp [hk]
    · left
      refine List.mem_map.mpr ⟨q, hq, ?_⟩
      rw [← hpa, ← hqp]
      simp [hk]
  · rw [if_neg h] at ha
    simpa [List.map_append] using ha

theorem collect_fold_mem_preserved {α : Type} (o : α → Option String)
    (key : α → String) (xs : List α) (acc : List (String × String)) (k v : String)
    (hmem : (k, v) ∈ acc) (hk : ∀ a ∈ xs, key a ≠ k) :
    (k, v) ∈ xs.foldl (collectStep o key) acc := by
  induction xs generalizing acc with
  | nil => exact hmem
  | cons a rest ih =>
    rw [List.foldl_cons]
    have hstep : (k, v) ∈ collectStep o key acc a := by
      unfold collectStep
      cases ho : o a with
      | some p =>
        exact mem_setEntry_of_ne k v (key a) p acc
          (fun hc => hk a (List.mem_cons_self a rest) hc.symm) hmem
      | none => exact hmem
    exact ih (collectStep o key acc a) hstep (fun b hb => hk b (List.mem_cons_of_mem a hb))

theorem collect_fold_mem {α : Type} (o : α → Option String) (key : α → String)
    (xs : List α) (acc : List (String × String)) (x : α) (p : String)
    (hnd : (xs.map key).Nodup) (hx : x ∈ xs) (hp : o x = some p) :
    (key x, p) ∈ xs.foldl (collectStep o key) acc := by
  induction xs generalizing acc with
  | nil => cases hx
  | cons a rest ih =>
    rw [List.foldl_cons]
    simp only [List.map_cons, List.nodup_cons] at hnd
    rcases List.mem_cons.mp hx with rfl | hx2
    · refine collect_fold_mem_preserved o key rest _ (key x) p ?_ ?_
      · unfold collectStep
        rw [hp]
        exact mem_setEntry_self _ _ _
      · intro b hb hc
        exact hnd.1 (hc ▸ List.mem_map.mpr ⟨b, hb, rfl⟩)
    · exact ih _ hnd.2 hx2

theorem collect_fold_keys {α : Type} (o : α → Option String) (key : α → String)
    (xs : List α) (acc : List (String × String)) (k : String)
    (hacc : k ∉ acc.map (fun q => q.1))
    (hall : ∀ a ∈ xs, key a = k → o a = none) :
    k ∉ (xs.foldl (collectStep o key) acc).map (fun q => q.1) := by
  induction xs generalizing acc with
  | nil => exact hacc
  | cons a rest ih =>
    rw [List.foldl_cons]
    refine ih _ ?_ (fun b hb hbk => hall b (List.mem_cons_of_mem a hb) hbk)
    unfold collectStep
    cases ho : o a with
    | none => exact hacc
    | some p =>
      intro hc
      rcases keys_setEntry (key a) p acc k hc with hc1 | hc1
      · exact hacc hc1
      · have h2 := hall a (List.mem_cons_self a rest) hc1.symm
        rw [ho] at h2
        cases h2

theorem generateCFG_ok_eq (render : String → Nat × CFGState → Option String)
    (funcs : List PyFunctionDef) :
    generateCFG render (.ok funcs) =
      .ok (collectResults
        (fun fd => render fd.name (buildCFGFromFunction fd.name fd.args fd.body 0))
        (fun fd => fd.name) funcs) := rfl

theorem generateDFGAll_ok_eq (renderD : String → List (String × VarInfo) → Option String)
    (stmts : List PStmt) :
    generateDFGForAllFunctions renderD (.ok stmts) =
      .ok (collectResults (dfgOutcome renderD (.ok stmts)) (fun n => n)
        (collectFunctionNames stmts)) := by
  unfold generateDFGForAllFunctions collectResults
  have hstep : (fun (result : List (String × String)) (fname : String) =>
      match generateDFG renderD (.ok stmts) fname with
      | .ok (some p) => setEntry fname p result
      | _ => result) = collectStep (dfgOutcome renderD (.ok stmts)) (fun n => n) := by
    funext res fname
    unfold collectStep dfgOutcome
    cases hg : generateDFG renderD (.ok stmts) fname with
    | ok o => cases o <;> rfl
    | error e => rfl
  rw [hstep]

/- ===================== artifact-path injectivity (C7) ===================== -/

theorem artifactPath_inj (d f t1 t2 : String)
    (h : artifactPath d f t1 = artifactPath d f t2) : t1 = t2 := by
  unfold artifactPath at h
  have hd := congrArg String.data h
  simp only [String.data_append, List.append_assoc] at hd
  have h1 := List.append_cancel_left hd
  have h2 := List.append_cancel_left h1
  have h3 := List.append_cancel_left h2
  have h4 := List.append_cancel_left h3
  have h5 := List.append_cancel_right h4
  cases t1
  cases t2
  simp_all

/- ===================== claim theorems ===================== -/

/-- C1 counterexample: on a parse failure both generators return ordinary
success-shaped values — `generate_cfg` the empty mapping and `generate_dfg`
`None` — instead of surfacing the failure, refuting the claim as stated. -/
theorem parse_failure_swallowed_cex :
    generateCFG cexRender (.error "invalid syntax") = .ok [] ∧
    generateDFG (fun _ _ => none) (.error "invalid syntax") "foo" = .ok none :=
  ⟨rfl, rfl⟩

/-- C1 (amended): a parse failure is caught inside the generators, never
propagated: `generate_cfg` logs and returns the (empty) result dict and
`generate_dfg` logs and returns `None`, with no CFG/DFG construction
attempted — the outcome is independent of the render backend. -/
theorem parse_failure_caught_returns_empty
    (render : String → Nat × CFGState → Option String)
    (renderD : String → List (String × VarInfo) → Option String)
    (e fname : String) :
    generateCFG render (.error e) = .ok [] ∧
    generateDFG renderD (.error e) fname = .ok none :=
  ⟨rfl, rfl⟩

/-- C2 counterexample: two consecutive invocations of
`_build_cfg_from_function` (the second starting from the first one's final
class-counter value, which is nonzero) both produce a node with id 0 — the
ids collide across repeated invocations, refuting the claim as stated. -/
theorem node_id_collision_cex :
    (buildCFGFromFunction "f" [] [CStmt.sret none] 0).1 = 0 ∧
    (buildCFGFromFunction "f" [] [CStmt.sret none] 0).2.counter ≠ 0 ∧
    (buildCFGFromFunction "f" [] [CStmt.sret none]
      (buildCFGFromFunction "f" [] [CStmt.sret none] 0).2.counter).1 = 0 ∧
    lookupNode (buildCFGFromFunction "f" [] [CStmt.sret none] 0).2 0 ≠ none ∧
    lookupNode (buildCFGFromFunction "f" [] [CStmt.sret none]
      (buildCFGFromFunction "f" [] [CStmt.sret none] 0).2.counter).2 0 ≠ none := by
  refine ⟨rfl, by decide, rfl, by decide, by decide⟩

/-- C2 (amended): the node-id counter is a class-level global shared across
invocations, but `_build_cfg_from_function` resets it to 0 on entry, so a
call's output — in particular its entry node id, always 0 — does not depend
on the counter value left behind by earlier invocations; consequently
repeated invocations reuse the same ids instead of producing distinct ones. -/
theorem build_resets_shared_counter (name : String) (args : List String)
    (body : List CStmt) (c : Nat) :
    (buildCFGFromFunction name args body c).1 = 0 ∧
    buildCFGFromFunction name args body c = buildCFGFromFunction name args body 0 := by
  constructor
  · cases body with
    | nil => rfl
    | cons b rest =>
      simp only [buildCFGFromFunction]
      split <;> rfl
  · rfl

/-- C3 counterexample: in Scenario 2 the loop variable `i` is recorded with
dependency set {range, n}, not {n} — `visit_For` traverses `range(n)`
generically and `visit_Name` collects the Load-context name `range` too. -/
theorem loop_var_deps_include_range_cex :
    lookupVar "i" (analyzeModule "g" gModule) =
      some ⟨"loop_var", {"range", "n"}, 3⟩ ∧
    ({"range", "n"} : Finset String) ≠ {"n"} := by
  constructor
  · decide
  · decide

/-- C3 (amended): for Scenario 2 the analyzer produces exactly the records
n (parameter, deps {}), s (final record after the loop, deps {s, i}),
i (loop_var, deps {range, n} — the callee name `range` is collected as a
Load-context read; it is dropped only later at edge-drawing time because it
is not itself a recorded variable), and the reserved return key with
deps {s}. -/
theorem analyzer_records_for_scenario_g :
    analyzeModule "g" gModule =
      [("n", ⟨"parameter", ∅, 1⟩), ("s", ⟨"variable", {"s", "i"}, 4⟩),
       ("i", ⟨"loop_var", {"range", "n"}, 3⟩), ("__return__", ⟨"return", {"s"}, 5⟩)] := by
  decide

/-- C4: a CFG node of kind `return` never has a successor: the builder keeps
the invariant over any statement list and continuation, and every graph
produced by `_build_cfg_from_function` satisfies it outright. -/
theorem return_nodes_always_terminal :
    (∀ (stmts : List CStmt) (next : Option Nat) (s : CFGState),
      wfcState s → retInv s → retInv (buildStmts stmts next s).2) ∧
    (∀ (name : String) (args : List String) (body : List CStmt) (c : Nat),
      retInv (buildCFGFromFunction name args body c).2) :=
  ⟨fun stmts next s hw hr => (buildStmts_ok stmts next s).2.2.2.1 hw hr,
   retInv_buildCFGFromFunction⟩

/-- C4 witness: the invariant discharged on a concrete branch whose sibling
reconnects to a continuation, and on a concrete whole function. -/
theorem return_nodes_always_terminal_witness :
    wfcState initCFGState ∧ retInv initCFGState ∧
    retInv (buildStmts [CStmt.sif "x > 0" [CStmt.sret (some "x")] [],
      CStmt.sother "y = 1"] none initCFGState).2 ∧
    retInv (buildCFGFromFunction "f" ["a"] [CStmt.sret (some "a")] 7).2 :=
  ⟨by unfold wfcState boundedKeys nodupKeys; decide,
   by unfold retInv; decide,
   return_nodes_always_terminal.1 _ none initCFGState
     (by unfold wfcState boundedKeys nodupKeys; decide)
     (by unfold retInv; decide),
   return_nodes_always_terminal.2 "f" ["a"] [CStmt.sret (some "a")] 7⟩

/-- C5: the code contradicts the claimed isolation: analyzing `f` in a module
where the target function contains a nested def with the same name records
the nested definition's parameter `b` (cross-contamination) and never
records the outer statement `x = a` that follows the nested def, because
`visit_FunctionDef` re-enters on the matching nested name and resets the
tracking flag to inactive when that inner visit finishes. -/
theorem nested_same_name_contaminates :
    analyzeModule "f" nestedModule =
      [("a", ⟨"parameter", ∅, 1⟩), ("b", ⟨"parameter", ∅, 2⟩),
       ("__return__", ⟨"return", {"b"}, 3⟩)] ∧
    lookupVar "x" (analyzeModule "f" nestedModule) = none := by
  constructor
  · decide
  · decide

/-- C6 counterexample: with a backend that fails for `f` and succeeds for
`g`, `generate_cfg` returns a result that maps only `g` — the failed
function is silently omitted, with no record of which functions failed,
refuting the claim as stated. -/
theorem failed_function_silently_omitted_cex :
    generateCFG cexRender (.ok twoFuncs) = .ok [("g", "g.png")] ∧
    "f" ∉ ([("g", "g.png")] : List (String × String)).map (fun q => q.1) :=
  ⟨rfl, by decide⟩

/-- C6 (amended): a render failure for one function does not abort the
others — every function whose render succeeds appears in the result with its
path, regardless of failures elsewhere in the module — but the result
describes only the successes: a function whose render fails (or, for DFGs,
whose analysis yields no variables) is silently omitted from the result
dict, and no per-function error information is returned. -/
theorem per_function_render_outcomes :
    (∀ (render : String → Nat × CFGState → Option String)
       (funcs : List PyFunctionDef) (res : List (String × String))
       (fd : PyFunctionDef) (p : String),
      generateCFG render (.ok funcs) = .ok res →
      (funcs.map (fun fd => fd.name)).Nodup → fd ∈ funcs →
      (render fd.name (buildCFGFromFunction fd.name fd.args fd.body 0) = some p →
        (fd.name, p) ∈ res) ∧
      (render fd.name (buildCFGFromFunction fd.name fd.args fd.body 0) = none →
        fd.name ∉ res.map (fun q => q.1))) ∧
    (∀ (renderD : String → List (String × VarInfo) → Option String)
       (stmts : List PStmt) (res : List (String × String)) (fname : String),
      generateDFGForAllFunctions renderD (.ok stmts) = .ok res →
      (collectFunctionNames stmts).Nodup → fname ∈ collectFunctionNames stmts →
      (∀ p, dfgOutcome renderD (.ok stmts) fname = some p → (fname, p) ∈ res) ∧
      (dfgOutcome renderD (.ok stmts) fname = none →
        fname ∉ res.map (fun q => q.1))) := by
  constructor
  · intro render funcs res fd p hres hnd hfd
    rw [generateCFG_ok_eq] at hres
    injection hres with hres1
    subst hres1
    constructor
    · intro hrend
      exact collect_fold_mem _ _ funcs [] fd p hnd hfd hrend
    · intro hrend
      refine collect_fold_keys _ _ funcs [] fd.name (by simp) ?_
      intro a ha hak
      have haf : a = fd := List.inj_on_of_nodup_map hnd ha hfd hak
      rw [haf]
      exact hrend
  · intro renderD stmts res fname hres hnd hfn
    rw [generateDFGAll_ok_eq] at hres
    injection hres with hres1
    subst hres1
    constructor
    · intro p hp
      exact collect_fold_mem _ _ _ [] fname p (by simpa using hnd) hfn hp
    · intro hp
      refine collect_fold_keys _ _ _ [] fname (by simp) ?_
      intro a ha hak
      rw [hak]
      exact hp

/-- C6 witness: the amended behaviour on the concrete two-function module —
g's success is present even though f failed earlier, and f is absent. -/
theorem per_function_render_outcomes_witness :
    (generateCFG cexRender (.ok twoFuncs) = .ok [("g", "g.png")] ∧
      (twoFuncs.map (fun fd => fd.name)).Nodup) ∧
    ("g", "g.png") ∈ ([("g", "g.png")] : List (String × String)) ∧
    "f" ∉ ([("g", "g.png")] : List (String × String)).map (fun q => q.1) :=
  ⟨⟨rfl, by decide⟩,
   (per_function_render_outcomes.1 cexRender twoFuncs [("g", "g.png")]
     ⟨"g", [], [CStmt.sret none]⟩ "g.png" rfl (by decide)
     (List.mem_cons_of_mem _ (List.mem_cons_self _ _))).1 rfl,
   (per_function_render_outcomes.1 cexRender twoFuncs [("g", "g.png")]
     ⟨"f", [], [CStmt.sret none]⟩ "unused" rfl (by decide)
     (List.mem_cons_self _ _)).2 rfl⟩

/-- C7 counterexample: two render calls within the same second — distinct
instants, differing only in microseconds — format to the same
`%Y%m%d_%H%M%S` stamp and therefore to the same artifact path, which the
second `graph.render` overwrites, refuting the claim as stated. -/
theorem same_second_render_collision_cex :
    (⟨2025, 10, 12, 7, 30, 0, 0⟩ : PyDateTime) ≠ ⟨2025, 10, 12, 7, 30, 0, 500000⟩ ∧
    formatTimestamp ⟨2025, 10, 12, 7, 30, 0, 0⟩ =
      formatTimestamp ⟨2025, 10, 12, 7, 30, 0, 500000⟩ ∧
    artifactPath "generated_artifacts/cfg" "quick_sort"
        (formatTimestamp ⟨2025, 10, 12, 7, 30, 0, 0⟩) =
      artifactPath "generated_artifacts/cfg" "quick_sort"
        (formatTimestamp ⟨2025, 10, 12, 7, 30, 0, 500000⟩) :=
  ⟨by decide, rfl, rfl⟩

/-- C7 (amended): artifact paths are distinct exactly when the formatted
second-resolution timestamps differ: render calls that fall in different
seconds can never overwrite one another, while calls within the same second
produce the same path. -/
theorem distinct_timestamps_distinct_paths (dir f : String) (dt1 dt2 : PyDateTime)
    (hne : formatTimestamp dt1 ≠ formatTimestamp dt2) :
    artifactPath dir f (formatTimestamp dt1) ≠ artifactPath dir f (formatTimestamp dt2) :=
  fun hc => hne (artifactPath_inj dir f _ _ hc)

/-- C7 witness: two calls one second apart produce distinct paths. -/
theorem distinct_timestamps_distinct_paths_witness :
    formatTimestamp ⟨2025, 10, 12, 7, 30, 0, 0⟩ ≠
      formatTimestamp ⟨2025, 10, 12, 7, 30, 1, 0⟩ ∧
    artifactPath "generated_artifacts/cfg" "quick_sort"
        (formatTimestamp ⟨2025, 10, 12, 7, 30, 0, 0⟩) ≠
      artifactPath "generated_artifacts/cfg" "quick_sort"
        (formatTimestamp ⟨2025, 10, 12, 7, 30, 1, 0⟩) :=
  ⟨by decide,
   distinct_timestamps_distinct_paths "generated_artifacts/cfg" "quick_sort"
     ⟨2025, 10, 12, 7, 30, 0, 0⟩ ⟨2025, 10, 12, 7, 30, 1, 0⟩ (by decide)⟩

/-- C8 counterexample: a return statement whose unparsed value is 50
characters long yields a node whose label is the full 56-character
`return ...` text — the return arm applies no truncation, so the node
exceeds the 50-character bound, refuting the claim as stated. -/
theorem untruncated_return_label_cex :
    lookupNode (buildStmts
        [CStmt.sret (some "quick_sort(left) + middle + quick_sort(rightxx)xx")]
        none initCFGState).2 0 =
      some ⟨"return quick_sort(left) + middle + quick_sort(rightxx)xx",
        "return", []⟩ ∧
    50 < ("return quick_sort(left) + middle + quick_sort(rightxx)xx" : String).length := by
  constructor
  · rfl
  · decide

/-- C8 (amended): the labels of plain statements and of if/while/for
condition headers are the unparsed text truncated to at most 50 characters
(47 plus an ellipsis when truncation occurred) — an invariant of every
builder run — and a plain statement's node carries exactly the truncated
text; return, break/continue and entry labels, however, are used verbatim
and are not subject to the bound. -/
theorem statement_condition_labels_bounded :
    (∀ (stmts : List CStmt) (next : Option Nat) (s : CFGState),
      labInv s → labInv (buildStmts stmts next s).2) ∧
    (∀ (text : String) (cur : Option Nat) (s : CFGState),
      lookupNode (buildStmt (CStmt.sother text) cur s).2 s.counter =
        some ⟨truncateLabel text, "statement",
          match cur with
          | some c => [(c, "")]
          | none => []⟩) := by
  constructor
  · exact fun stmts next s hl => (buildStmts_ok stmts next s).2.2.2.2.1 hl
  · intro text cur s
    cases cur with
    | none => exact lookupNode_newNode_self _ _ _
    | some c =>
      show lookupNode (addSuccessor (newNode (truncateLabel text) "statement" s).1 c ""
        (newNode (truncateLabel text) "statement" s).2) s.counter = _
      rw [newNode_fst, lookupNode_addSuccessor_self, lookupNode_newNode_self]
      rfl

/-- C8 witness: the label invariant discharged on a concrete build containing
a long plain statement, and the exact label of a concrete statement node. -/
theorem statement_condition_labels_bounded_witness :
    labInv initCFGState ∧
    labInv (buildStmts
      [CStmt.sother "result = an_extremely_long_function_name(argument_one, argument_two)"]
      none initCFGState).2 ∧
    lookupNode (buildStmt (CStmt.sother "x = 1") none initCFGState).2 0 =
      some ⟨truncateLabel "x = 1", "statement", []⟩ :=
  ⟨by unfold labInv; decide,
   statement_condition_labels_bounded.1 _ none initCFGState (by unfold labInv; decide),
   statement_condition_labels_bounded.2 "x = 1" none initCFGState⟩

/-- C9 counterexample: a while loop whose non-empty body is a single
`return` produces no back-edge — the node reached along the "True" edge is
the return node, whose successor list is empty and in particular does not
contain the condition node — refuting the claim as stated for every
non-empty body. -/
theorem while_return_body_no_backedge_cex :
    lookupNode (buildStmt (CStmt.swhile "x > 0" [CStmt.sret none]) none initCFGState).2 1 =
      some ⟨"return", "return", []⟩ ∧
    lookupNode (buildStmt (CStmt.swhile "x > 0" [CStmt.sret none]) none initCFGState).2 0 =
      some ⟨"while x > 0", "condition", [(1, "True")]⟩ := by
  constructor
  · rfl
  · rfl

/-- C9 witness: the back-edge and False edge on a concrete loop
`while x > 0: s += 1` built after one existing node, with continuation the
existing node 0. -/
theorem while_backedge_witness :
    (∀ n, (some 0 : Option Nat) = some n →
      n < (⟨1, [(0, ⟨"x = 0", "statement", []⟩)]⟩ : CFGState).counter) ∧
    lookupNode (buildStmt (CStmt.swhile "x > 0" ([] ++ [CStmt.sother "s += 1"])) (some 0)
        (⟨1, [(0, ⟨"x = 0", "statement", []⟩)]⟩ : CFGState)).2 2 =
      some ⟨truncateLabel "s += 1", "statement", [(1, "")]⟩ ∧
    (∃ nd, lookupNode (buildStmt (CStmt.swhile "x > 0" ([] ++ [CStmt.sother "s += 1"]))
        (some 0) (⟨1, [(0, ⟨"x = 0", "statement", []⟩)]⟩ : CFGState)).2 1 = some nd ∧
      (0, "False") ∈ nd.succs) := by
  have hhyp : ∀ n, (some 0 : Option Nat) = some n →
      n < (⟨1, [(0, ⟨"x = 0", "statement", []⟩)]⟩ : CFGState).counter := by
    intro n hn
    cases hn
    decide
  have happ := while_plain_tail_backedge "x > 0" "s += 1" [] (some 0)
    ⟨1, [(0, ⟨"x = 0", "statement", []⟩)]⟩ hhyp
  exact ⟨hhyp, happ.1, happ.2 0 rfl⟩

/-- C10: in an assignment whose target is a tuple or list unpacking
pattern, every plain-Name element of the pattern receives a record whose
dependency set is the Load-context reads of the entire right-hand side,
while pattern elements that are not plain Names leave the record table
untouched — they receive no record at all.  The four conjuncts state this
for a tuple pattern and for a list pattern (the `ast.Tuple` and `ast.List`
arms of `visit_Assign` share one branch, lines 64-72). -/
theorem tuple_unpacking_full_rhs_deps (fname : String) (st : AState)
    (elts : List PExpr) (value : PExpr) (line : Nat) (ht : st.inTarget = true) :
    (∀ id, id ∈ namesOf elts →
      lookupVar id (visitStmt fname st
        (PStmt.assign [PExpr.tupleE elts] value line)).vars =
        some ⟨"variable", reads value, line⟩) ∧
    (∀ id, id ∉ namesOf elts →
      lookupVar id (visitStmt fname st
        (PStmt.assign [PExpr.tupleE elts] value line)).vars =
        lookupVar id st.vars) ∧
    (∀ id, id ∈ namesOf elts →
      lookupVar id (visitStmt fname st
        (PStmt.assign [PExpr.listE elts] value line)).vars =
        some ⟨"variable", reads value, line⟩) ∧
    (∀ id, id ∉ namesOf elts →
      lookupVar id (visitStmt fname st
        (PStmt.assign [PExpr.listE elts] value line)).vars =
        lookupVar id st.vars) := by
  refine ⟨?_, ?_, ?_, ?_⟩
  · intro id hid
    simp only [visitStmt]
    rw [if_pos ht]
    exact foldl_setNames_mem elts (reads value) line st.vars id hid
  · intro id hid
    simp only [visitStmt]
    rw [if_pos ht]
    exact foldl_setNames_not_mem elts (reads value) line st.vars id hid
  · intro id hid
    simp only [visitStmt]
    rw [if_pos ht]
    exact foldl_setNames_mem elts (reads value) line st.vars id hid
  · intro id hid
    simp only [visitStmt]
    rw [if_pos ht]
    exact foldl_setNames_not_mem elts (reads value) line st.vars id hid

/-- C10 witness: `a, o.fld, b = x + y` gives both `a` and `b` the full
dependency set {x, y} and the attribute element records nothing; the same
pattern written as a list target `[a, o.fld, b] = x + y` behaves
identically. -/
theorem tuple_unpacking_full_rhs_deps_witness :
    ((⟨[], true⟩ : AState).inTarget = true) ∧
    lookupVar "a" (visitStmt "f" ⟨[], true⟩
      (PStmt.assign [PExpr.tupleE [PExpr.name "a" Ctx.store,
        PExpr.attr (PExpr.name "o" Ctx.load) "fld", PExpr.name "b" Ctx.store]]
        (PExpr.binop (PExpr.name "x" Ctx.load) (PExpr.name "y" Ctx.load)) 7)).vars =
      some ⟨"variable", {"x", "y"}, 7⟩ ∧
    lookupVar "o" (visitStmt "f" ⟨[], true⟩
      (PStmt.assign [PExpr.tupleE [PExpr.name "a" Ctx.store,
        PExpr.attr (PExpr.name "o" Ctx.load) "fld", PExpr.name "b" Ctx.store]]
        (PExpr.binop (PExpr.name "x" Ctx.load) (PExpr.name "y" Ctx.load)) 7)).vars =
      none ∧
    lookupVar "b" (visitStmt "f" ⟨[], true⟩
      (PStmt.assign [PExpr.listE [PExpr.name "a" Ctx.store,
        PExpr.attr (PExpr.name "o" Ctx.load) "fld", PExpr.name "b" Ctx.store]]
        (PExpr.binop (PExpr.name "x" Ctx.load) (PExpr.name "y" Ctx.load)) 7)).vars =
      some ⟨"variable", {"x", "y"}, 7⟩ ∧
    lookupVar "o" (visitStmt "f" ⟨[], true⟩
      (PStmt.assign [PExpr.listE [PExpr.name "a" Ctx.store,
        PExpr.attr (PExpr.name "o" Ctx.load) "fld", PExpr.name "b" Ctx.store]]
        (PExpr.binop (PExpr.name "x" Ctx.load) (PExpr.name "y" Ctx.load)) 7)).vars =
      none := by
  have h := tuple_unpacking_full_rhs_deps "f" ⟨[], true⟩
    [PExpr.name "a" Ctx.store, PExpr.attr (PExpr.name "o" Ctx.load) "fld",
      PExpr.name "b" Ctx.store]
    (PExpr.binop (PExpr.name "x" Ctx.load) (PExpr.name "y" Ctx.load)) 7 rfl
  refine ⟨rfl, ?_, ?_, ?_, ?_⟩
  · rw [h.1 "a" (by decide)]
    decide
  · exact h.2.1 "o" (by decide)
  · rw [h.2.2.1 "b" (by decide)]
    decide
  · exact h.2.2.2 "o" (by decide)
